import Mathlib

/-!
Verification of the Skill Match & Fit Scoring Engine of the nymph-docker
backend (`backend/app/job_analysis.py` and the recommendation derivation in
`backend/app/main.py`).

The Python functions `generate_demo_skill_match`, `analyze_skill_match` and
`generate_recommendations` are embedded shallowly below.  Python strings are
modelled by Lean `String`; `str.lower()` is modelled on its ASCII fragment
(the only fragment exercised by skill tokens here), `str.strip()` strips the
ASCII whitespace characters recognised by `Char.isWhitespace`, and Python's
float percentages are modelled by exact rationals, with `round(x, 1)`
modelled by `round1`.  Python lists become Lean lists; a `for`-loop appending
to an accumulator under a condition becomes `List.flatMap` / `List.filterMap`
in the same iteration order.  The nested matching loops of the source are
named top-level functions (`exactPass`, `partialPass`, `missingOf`,
`demoExactPass`) so that the theorems below can speak about them directly;
each corresponds verbatim to one loop nest of the Python source.
-/

namespace Nymph

/-- One matched pair, as built by the dict literals in the Python source;
`match_type` is the free-form string tag used there (`"exact"` / `"partial"`). -/
structure MatchRecord where
  resume_skill : String
  job_skill : String
  match_type : String
deriving DecidableEq, Repr

/-- Per-category result dict (`required_skills` / `preferred_skills`). -/
structure CategoryResult where
  total : Nat
  matched : Nat
  match_percentage : ℚ
  exact_matches : List MatchRecord
  partial_matches : List MatchRecord
  missing : List String
deriving DecidableEq, Repr

/-- The `analysis_summary` dict of four qualitative band flags. -/
structure AnalysisSummary where
  strong_match : Bool
  good_match : Bool
  fair_match : Bool
  weak_match : Bool
deriving DecidableEq, Repr

/-- The full report returned by `analyze_skill_match`.  The Python dict of the
normal path carries no `demo_mode` / `demo_note` keys; an absent key is
modelled as `demo_mode = false`, `demo_note = ""`. -/
structure MatchReport where
  overall_match_percentage : ℚ
  required_skills : CategoryResult
  preferred_skills : CategoryResult
  resume_skills : List String
  analysis_summary : AnalysisSummary
  demo_mode : Bool
  demo_note : String
deriving DecidableEq, Repr

/-- The dict returned by `generate_recommendations` in `main.py`. -/
structure RecommendationReport where
  overall_assessment : String
  priority_skills : List String
  nice_to_have_skills : List String
  action_items : List String
deriving DecidableEq, Repr

/-- ASCII case folding of one character, the fragment of Python `str.lower`
exercised by skill tokens. -/
def pyLowerChar (c : Char) : Char :=
  if 65 ≤ c.toNat ∧ c.toNat ≤ 90 then Char.ofNat (c.toNat + 32) else c

/-- Python `s.lower()` on the character list of `s`. -/
def lowerSkill (s : String) : List Char :=
  s.data.map pyLowerChar

/-- Python `s.strip()`: drop whitespace from both ends. -/
def pyStrip (l : List Char) : List Char :=
  ((l.dropWhile Char.isWhitespace).reverse.dropWhile Char.isWhitespace).reverse

/-- Python `s.lower().strip()`, the normalized comparison key of the engine. -/
def normSkill (s : String) : List Char :=
  pyStrip (lowerSkill s)

/-- Prefix test on character lists. -/
def listIsPrefix : List Char → List Char → Bool
  | [], _ => true
  | _ :: _, [] => false
  | a :: as, b :: bs => a == b && listIsPrefix as bs

/-- Python's substring operator `a in b` on character lists: `a` occurs
contiguously in `b` (the empty list occurs in everything). -/
def listIsSub (a : List Char) : List Char → Bool
  | [] => listIsPrefix a []
  | b :: bs => listIsPrefix a (b :: bs) || listIsSub a bs

/-- Python `round(x, 1)` modelled on rationals: round `10 x` to an integer
and divide by ten. -/
def round1 (q : ℚ) : ℚ :=
  ((round (q * 10) : ℤ) : ℚ) / 10

/-- The `analysis_summary` dict computed (identically) at the end of both
`generate_demo_skill_match` and `analyze_skill_match`, on the unrounded
overall percentage. -/
def mkSummary (o : ℚ) : AnalysisSummary :=
  ⟨decide (80 ≤ o), decide (60 ≤ o ∧ o < 80), decide (40 ≤ o ∧ o < 60), decide (o < 40)⟩

/-- The guarded percentage `matched / total * 100 if total > 0 else 0`
(job_analysis.py, lines 354-355; also lines 233-234 with the truthiness test
on the list whose length is `total`). -/
def category_percent (m t : ℕ) : ℚ :=
  if 0 < t then (m : ℚ) / (t : ℚ) * 100 else 0

/-- `demo_required_skills` constant of `generate_demo_skill_match`. -/
def demo_required_skills : List String :=
  ["JavaScript", "Python", "React", "Node.js"]

/-- `demo_preferred_skills` constant of `generate_demo_skill_match`. -/
def demo_preferred_skills : List String :=
  ["Docker", "AWS", "TypeScript", "Git"]

/-- `demo_note` string of the demo report. -/
def demoNote : String :=
  "This is a demo analysis using sample job requirements. For accurate matching, please configure OpenAI API credentials."

/-- The exact-match loop nest of `analyze_skill_match` (lines 292-311, one
category): for every resume skill, for every job skill, record the pair when
`resume_skill.lower().strip() == job_skill.lower().strip()`. -/
def exactPass (resume_skills job_skills : List String) : List MatchRecord :=
  resume_skills.flatMap fun r =>
    job_skills.filterMap fun j =>
      if normSkill r == normSkill j then some ⟨r, j, "exact"⟩ else none

/-- The partial-match loop nest of `analyze_skill_match` (lines 317-339, one
category): for every resume skill, for every job skill, record the pair when
one normalized form is a substring of the other and no record of the exact
pass has a `resume_skill` with the same `lower()` image (note: `lower()`
without `strip()` in the exclusion check, as in the source, line 324/334). -/
def partialPass (resume_skills job_skills : List String)
    (exact_records : List MatchRecord) : List MatchRecord :=
  resume_skills.flatMap fun r =>
    job_skills.filterMap fun j =>
      if (listIsSub (normSkill r) (normSkill j) || listIsSub (normSkill j) (normSkill r))
          && !(exact_records.any fun m => lowerSkill m.resume_skill == lowerSkill r)
      then some ⟨r, j, "partial"⟩ else none

/-- The missing-skill computation of `analyze_skill_match` (lines 342-348, one
category): job skills whose `lower()` image is not among the `lower()` images
of the recorded `job_skill`s. -/
def missingOf (job_skills : List String) (records : List MatchRecord) : List String :=
  job_skills.filter fun s =>
    !((records.map fun m => lowerSkill m.job_skill).contains (lowerSkill s))

/-- The exact-match loop nest of `generate_demo_skill_match` (lines 214-230,
one category): like `exactPass` but comparing `lower()` images without
`strip()`. -/
def demoExactPass (resume_skills job_skills : List String) : List MatchRecord :=
  resume_skills.flatMap fun r =>
    job_skills.filterMap fun d =>
      if lowerSkill r == lowerSkill d then some ⟨r, d, "exact"⟩ else none

/-- Embedding of `generate_demo_skill_match` (job_analysis.py, lines 201-271).
It matches `resume_skill.lower() == demo_skill.lower()` — exact,
case-insensitive, with no `strip()` and no partial pass — and its category
totals are the lengths of the fixed demo lists. -/
def generate_demo_skill_match (resume_skills : List String) : MatchReport :=
  let matched_required := demoExactPass resume_skills demo_required_skills
  let matched_preferred := demoExactPass resume_skills demo_preferred_skills
  let required_match_percent :=
    category_percent matched_required.length demo_required_skills.length
  let preferred_match_percent :=
    category_percent matched_preferred.length demo_preferred_skills.length
  let overall_match_percent :=
    required_match_percent * (7 / 10) + preferred_match_percent * (3 / 10)
  let missing_required := missingOf demo_required_skills matched_required
  let missing_preferred := missingOf demo_preferred_skills matched_preferred
  ⟨round1 overall_match_percent,
   ⟨demo_required_skills.length, matched_required.length, round1 required_match_percent,
    matched_required, [], missing_required⟩,
   ⟨demo_preferred_skills.length, matched_preferred.length, round1 preferred_match_percent,
    matched_preferred, [], missing_preferred⟩,
   resume_skills, mkSummary overall_match_percent, true, demoNote⟩

/-- The non-demo body of `analyze_skill_match` (job_analysis.py, lines
283-384).  The source also computes three normalized lists
(`resume_skills_lower`, `job_required_lower`, `job_preferred_lower`, lines
284-286) that are never read afterwards; being dead code they are omitted
here.  All loops iterate over the raw argument lists. -/
def analyze_normal (resume_skills job_required_skills job_preferred_skills : List String) :
    MatchReport :=
    let matched_required := exactPass resume_skills job_required_skills
    let matched_preferred := exactPass resume_skills job_preferred_skills
    let partial_matched_required :=
      partialPass resume_skills job_required_skills matched_required
    let partial_matched_preferred :=
      partialPass resume_skills job_preferred_skills matched_preferred
    let missing_required :=
      missingOf job_required_skills (matched_required ++ partial_matched_required)
    let missing_preferred :=
      missingOf job_preferred_skills (matched_preferred ++ partial_matched_preferred)
    let total_required := job_required_skills.length
    let total_preferred := job_preferred_skills.length
    let required_match_percent :=
      category_percent (matched_required.length + partial_matched_required.length)
        total_required
    let preferred_match_percent :=
      category_percent (matched_preferred.length + partial_matched_preferred.length)
        total_preferred
    let overall_match_percent :=
      if 0 < total_preferred then
        required_match_percent * (7 / 10) + preferred_match_percent * (3 / 10)
      else required_match_percent
    ⟨round1 overall_match_percent,
     ⟨total_required, matched_required.length + partial_matched_required.length,
      round1 required_match_percent, matched_required, partial_matched_required,
      missing_required⟩,
     ⟨total_preferred, matched_preferred.length + partial_matched_preferred.length,
      round1 preferred_match_percent, matched_preferred, partial_matched_preferred,
      missing_preferred⟩,
     resume_skills, mkSummary overall_match_percent, false, ""⟩

/-- Embedding of `analyze_skill_match` (job_analysis.py, lines 273-384): the
demo check of lines 278-281 (`if not job_required_skills and not
job_preferred_skills`) followed by the normal matching body `analyze_normal`. -/
def analyze_skill_match (resume_skills job_required_skills job_preferred_skills : List String) :
    MatchReport :=
  if job_required_skills.isEmpty && job_preferred_skills.isEmpty then
    generate_demo_skill_match resume_skills
  else
    analyze_normal resume_skills job_required_skills job_preferred_skills

/-- Embedding of `generate_recommendations` (main.py, lines 463-503). -/
def generate_recommendations (match_analysis : MatchReport) : RecommendationReport :=
  let overall_match := match_analysis.overall_match_percentage
  let missing_required := match_analysis.required_skills.missing
  let missing_preferred := match_analysis.preferred_skills.missing
  let overall_assessment :=
    if 80 ≤ overall_match then
      "Excellent match! You have most of the required skills for this position."
    else if 60 ≤ overall_match then
      "Good match! You meet many requirements but could strengthen a few areas."
    else if 40 ≤ overall_match then
      "Fair match. Consider developing additional skills before applying."
    else
      "Limited match. Significant skill development needed for this role."
  let action_items :=
    (if missing_required.isEmpty then []
     else ["Focus on learning " ++ toString missing_required.length ++ " missing required skills"])
    ++ (if missing_preferred.isEmpty then []
     else ["Consider learning " ++ toString missing_preferred.length ++ " preferred skills to stand out"])
    ++ (if 70 ≤ overall_match then ["You\x27re a strong candidate - consider applying!"] else [])
  ⟨overall_assessment, missing_required.take 5, missing_preferred.take 5, action_items⟩

/-- The reading of §4.4 of the spec under which the demo fallback re-invokes
the §4.2-4.3 pipeline: the report of `analyze_skill_match` on the caller's
resume skills against the fixed reference job profile, flagged as demo.
Stated from the spec's words, for comparison with `generate_demo_skill_match`. -/
def spec_demo_report (resume_skills : List String) : MatchReport :=
  { analyze_skill_match resume_skills demo_required_skills demo_preferred_skills with
      demo_mode := true, demo_note := demoNote }

/-! ### Helper lemmas -/

theorem not_both_empty_iff {req pref : List String} :
    (req.isEmpty && pref.isEmpty) = false ↔ ¬(req = [] ∧ pref = []) := by
  rcases req with _ | ⟨a, t⟩ <;> rcases pref with _ | ⟨b, u⟩ <;> simp [List.isEmpty]

theorem analyze_eq_normal {rs req pref : List String} (h : ¬(req = [] ∧ pref = [])) :
    analyze_skill_match rs req pref = analyze_normal rs req pref := by
  rw [analyze_skill_match, if_neg]
  rw [not_both_empty_iff.mpr h]
  simp

theorem analyze_eq_demo {rs : List String} :
    analyze_skill_match rs [] [] = generate_demo_skill_match rs := rfl

theorem normal_required_matched (rs req pref : List String) :
    (analyze_normal rs req pref).required_skills.matched =
      (exactPass rs req).length + (partialPass rs req (exactPass rs req)).length := rfl

theorem normal_preferred_matched (rs req pref : List String) :
    (analyze_normal rs req pref).preferred_skills.matched =
      (exactPass rs pref).length + (partialPass rs pref (exactPass rs pref)).length := rfl

theorem normal_required_exact (rs req pref : List String) :
    (analyze_normal rs req pref).required_skills.exact_matches = exactPass rs req := rfl

theorem normal_preferred_exact (rs req pref : List String) :
    (analyze_normal rs req pref).preferred_skills.exact_matches = exactPass rs pref := rfl

theorem normal_required_partial_list (rs req pref : List String) :
    (analyze_normal rs req pref).required_skills.partial_matches =
      partialPass rs req (exactPass rs req) := rfl

theorem normal_preferred_partial_list (rs req pref : List String) :
    (analyze_normal rs req pref).preferred_skills.partial_matches =
      partialPass rs pref (exactPass rs pref) := rfl

theorem normal_required_total (rs req pref : List String) :
    (analyze_normal rs req pref).required_skills.total = req.length := rfl

theorem normal_preferred_total (rs req pref : List String) :
    (analyze_normal rs req pref).preferred_skills.total = pref.length := rfl

theorem normal_required_missing (rs req pref : List String) :
    (analyze_normal rs req pref).required_skills.missing =
      missingOf req (exactPass rs req ++ partialPass rs req (exactPass rs req)) := rfl

theorem normal_preferred_missing (rs req pref : List String) :
    (analyze_normal rs req pref).preferred_skills.missing =
      missingOf pref (exactPass rs pref ++ partialPass rs pref (exactPass rs pref)) := rfl

theorem normal_required_pct (rs req pref : List String) :
    (analyze_normal rs req pref).required_skills.match_percentage =
      round1 (category_percent
        ((exactPass rs req).length + (partialPass rs req (exactPass rs req)).length)
        req.length) := rfl

theorem normal_preferred_pct (rs req pref : List String) :
    (analyze_normal rs req pref).preferred_skills.match_percentage =
      round1 (category_percent
        ((exactPass rs pref).length + (partialPass rs pref (exactPass rs pref)).length)
        pref.length) := rfl

theorem normal_overall (rs req pref : List String) :
    (analyze_normal rs req pref).overall_match_percentage =
      round1 (if 0 < pref.length then
          category_percent
              ((exactPass rs req).length + (partialPass rs req (exactPass rs req)).length)
              req.length * (7 / 10)
            + category_percent
              ((exactPass rs pref).length + (partialPass rs pref (exactPass rs pref)).length)
              pref.length * (3 / 10)
        else
          category_percent
            ((exactPass rs req).length + (partialPass rs req (exactPass rs req)).length)
            req.length) := rfl

theorem normal_demo_mode (rs req pref : List String) :
    (analyze_normal rs req pref).demo_mode = false := rfl

theorem demo_mode_true (rs : List String) :
    (generate_demo_skill_match rs).demo_mode = true := rfl

/-- `category_percent` agrees with the unguarded formula, because for `t = 0`
rational division by zero is zero as well. -/
theorem category_percent_eq (m t : ℕ) :
    category_percent m t = (m : ℚ) / (t : ℚ) * 100 := by
  unfold category_percent
  split_ifs with h
  · rfl
  · have ht : t = 0 := by omega
    subst ht
    norm_num

theorem mem_exactPass {rs job : List String} {m : MatchRecord} :
    m ∈ exactPass rs job ↔
      ∃ r ∈ rs, ∃ j ∈ job, normSkill r = normSkill j ∧ m = ⟨r, j, "exact"⟩ := by
  unfold exactPass
  simp only [List.mem_flatMap, List.mem_filterMap]
  constructor
  · rintro ⟨r, hr, j, hj, hm⟩
    split_ifs at hm with hc
    · simp only [Option.some.injEq] at hm
      exact ⟨r, hr, j, hj, by simpa using hc, hm.symm⟩
  · rintro ⟨r, hr, j, hj, hn, hm⟩
    exact ⟨r, hr, j, hj, by rw [if_pos (by simpa using hn)]; exact congrArg some hm.symm⟩

theorem mem_partialPass {rs job : List String} {ex : List MatchRecord} {m : MatchRecord} :
    m ∈ partialPass rs job ex ↔
      ∃ r ∈ rs, ∃ j ∈ job,
        ((listIsSub (normSkill r) (normSkill j) || listIsSub (normSkill j) (normSkill r))
          && !(ex.any fun m₀ => lowerSkill m₀.resume_skill == lowerSkill r)) = true ∧
        m = ⟨r, j, "partial"⟩ := by
  unfold partialPass
  simp only [List.mem_flatMap, List.mem_filterMap]
  constructor
  · rintro ⟨r, hr, j, hj, hm⟩
    split_ifs at hm with hc
    · simp only [Option.some.injEq] at hm
      exact ⟨r, hr, j, hj, hc, hm.symm⟩
  · rintro ⟨r, hr, j, hj, hc, hm⟩
    exact ⟨r, hr, j, hj, by rw [if_pos hc]; exact congrArg some hm.symm⟩

theorem normSkill_congr_of_lower {r r' : String} (h : lowerSkill r = lowerSkill r') :
    normSkill r = normSkill r' := by
  unfold normSkill
  rw [h]

/-- The exclusion test of the partial pass, for a skill `r` drawn from the
resume list, holds exactly when `r` exact-matches some job skill of the
category. -/
theorem any_exact_iff {rs job : List String} {r : String} (hr : r ∈ rs) :
    ((exactPass rs job).any fun m => lowerSkill m.resume_skill == lowerSkill r) = true ↔
      ∃ j ∈ job, normSkill r = normSkill j := by
  rw [List.any_eq_true]
  constructor
  · rintro ⟨m, hm, hbeq⟩
    obtain ⟨r', _, j, hj, hn, hrec⟩ := mem_exactPass.mp hm
    refine ⟨j, hj, ?_⟩
    have hl : lowerSkill m.resume_skill = lowerSkill r := by simpa using hbeq
    have : m.resume_skill = r' := by rw [hrec]
    rw [this] at hl
    exact (normSkill_congr_of_lower hl.symm).trans hn
  · rintro ⟨j, hj, hn⟩
    refine ⟨⟨r, j, "exact"⟩, mem_exactPass.mpr ⟨r, hr, j, hj, hn, rfl⟩, by simp⟩

/-- A skill of the resume list is the `resume_skill` of an exact record iff it
exact-matches some job skill of the category. -/
theorem exact_record_iff {rs job : List String} {r : String} (hr : r ∈ rs) :
    (∃ m ∈ exactPass rs job, m.resume_skill = r) ↔ ∃ j ∈ job, normSkill r = normSkill j := by
  constructor
  · rintro ⟨m, hm, hres⟩
    obtain ⟨r', _, j, hj, hn, hrec⟩ := mem_exactPass.mp hm
    have : r' = r := by rw [hrec] at hres; exact hres
    exact ⟨j, hj, this ▸ hn⟩
  · rintro ⟨j, hj, hn⟩
    exact ⟨⟨r, j, "exact"⟩, mem_exactPass.mpr ⟨r, hr, j, hj, hn, rfl⟩, rfl⟩

theorem listIsSub_nil_left (b : List Char) : listIsSub [] b = true := by
  cases b <;> simp [listIsSub, listIsPrefix]

/-- Length bound for a pair of flat-mapped lists whose contributions are
jointly bounded per element. -/
theorem length_flatMap_add_le {α β γ : Type} (l : List α) (f : α → List β) (g : α → List γ)
    (n : ℕ) (h : ∀ a ∈ l, (f a).length + (g a).length ≤ n) :
    (l.flatMap f).length + (l.flatMap g).length ≤ l.length * n := by
  induction l with
  | nil => simp
  | cons a t ih =>
      have ha := h a (List.mem_cons_self a t)
      have ht := ih fun x hx => h x (List.mem_cons_of_mem a hx)
      simp only [List.flatMap_cons, List.length_append, List.length_cons, Nat.succ_mul]
      omega

theorem filterMap_congr_mem {α β : Type} {l : List α} {f g : α → Option β}
    (h : ∀ a ∈ l, f a = g a) : l.filterMap f = l.filterMap g := by
  induction l with
  | nil => rfl
  | cons a t ih =>
      simp only [List.filterMap_cons, h a (List.mem_cons_self a t),
        ih fun x hx => h x (List.mem_cons_of_mem a hx)]

theorem flatMap_congr_mem {α β : Type} {l : List α} {f g : α → List β}
    (h : ∀ a ∈ l, f a = g a) : l.flatMap f = l.flatMap g := by
  induction l with
  | nil => rfl
  | cons a t ih =>
      simp only [List.flatMap_cons, h a (List.mem_cons_self a t),
        ih fun x hx => h x (List.mem_cons_of_mem a hx)]

/-- Per category, the exact and the partial pass together record at most
`|resume| * |job|` pairs: a resume skill that exact-matched anything is
excluded from the whole partial pass, so each (resume, job) pair is recorded
at most once. -/
theorem exact_add_partial_le (rs job : List String) :
    (exactPass rs job).length + (partialPass rs job (exactPass rs job)).length ≤
      rs.length * job.length := by
  have key : ∀ r ∈ rs,
      (job.filterMap fun j =>
        if normSkill r == normSkill j then some (⟨r, j, "exact"⟩ : MatchRecord) else none).length +
      (job.filterMap fun j =>
        if (listIsSub (normSkill r) (normSkill j) || listIsSub (normSkill j) (normSkill r))
            && !((exactPass rs job).any fun m => lowerSkill m.resume_skill == lowerSkill r)
        then some (⟨r, j, "partial"⟩ : MatchRecord) else none).length ≤ job.length := by
    intro r hr
    by_cases hex : ∃ j ∈ job, normSkill r = normSkill j
    · have hany := (@any_exact_iff rs job r hr).mpr hex
      have hnil : (job.filterMap fun j =>
          if (listIsSub (normSkill r) (normSkill j) || listIsSub (normSkill j) (normSkill r))
              && !((exactPass rs job).any fun m => lowerSkill m.resume_skill == lowerSkill r)
          then some (⟨r, j, "partial"⟩ : MatchRecord) else none) = [] := by
        rw [List.filterMap_eq_nil_iff]
        intro j hj
        rw [hany]
        simp
      rw [hnil]
      simpa using List.length_filterMap_le _ job
    · have hnil : (job.filterMap fun j =>
          if normSkill r == normSkill j then some (⟨r, j, "exact"⟩ : MatchRecord) else none) = [] := by
        rw [List.filterMap_eq_nil_iff]
        intro j hj
        rw [if_neg]
        simp only [beq_iff_eq]
        exact fun hn => hex ⟨j, hj, hn⟩
      rw [hnil]
      simpa using List.length_filterMap_le _ job
  exact length_flatMap_add_le rs _ _ job.length key

/-- The two generators always fill `analysis_summary` through `mkSummary`. -/
theorem analysis_summary_is_mkSummary (rs req pref : List String) :
    ∃ o, (analyze_skill_match rs req pref).analysis_summary = mkSummary o := by
  rw [analyze_skill_match]
  split
  · exact ⟨_, rfl⟩
  · exact ⟨_, rfl⟩

/-- Of the four band flags of `mkSummary`, exactly one is set, whatever the
rational overall percentage. -/
theorem mkSummary_count (o : ℚ) :
    ((if (mkSummary o).strong_match then 1 else 0) + (if (mkSummary o).good_match then 1 else 0)
      + (if (mkSummary o).fair_match then 1 else 0)
      + (if (mkSummary o).weak_match then 1 else 0) : ℕ) = 1 := by
  simp only [mkSummary, decide_eq_true_eq]
  rcases lt_or_le o 40 with h40 | h40
  · rw [if_neg (by linarith : ¬(80 : ℚ) ≤ o),
      if_neg (fun hc => by linarith [hc.1] : ¬((60 : ℚ) ≤ o ∧ o < 80)),
      if_neg (fun hc => by linarith [hc.1] : ¬((40 : ℚ) ≤ o ∧ o < 60)),
      if_pos h40]
  · rcases lt_or_le o 60 with h60 | h60
    · rw [if_neg (by linarith : ¬(80 : ℚ) ≤ o),
        if_neg (fun hc => by linarith [hc.1] : ¬((60 : ℚ) ≤ o ∧ o < 80)),
        if_pos (⟨h40, h60⟩ : (40 : ℚ) ≤ o ∧ o < 60), if_neg (by linarith : ¬o < 40)]
    · rcases lt_or_le o 80 with h80 | h80
      · rw [if_neg (by linarith : ¬(80 : ℚ) ≤ o),
          if_pos (⟨h60, h80⟩ : (60 : ℚ) ≤ o ∧ o < 80),
          if_neg (fun hc => by linarith [hc.2] : ¬((40 : ℚ) ≤ o ∧ o < 60)),
          if_neg (by linarith : ¬o < 40)]
      · rw [if_pos h80,
          if_neg (fun hc => by linarith [hc.2] : ¬((60 : ℚ) ≤ o ∧ o < 80)),
          if_neg (fun hc => by linarith [hc.2] : ¬((40 : ℚ) ≤ o ∧ o < 60)),
          if_neg (by linarith : ¬o < 40)]

/-- Rounding a guarded percentage: the zero-total branch yields zero. -/
theorem round1_category_percent (m t : ℕ) :
    round1 (category_percent m t) =
      if t ≠ 0 then round1 ((m : ℚ) / (t : ℚ) * 100) else 0 := by
  split_ifs with h
  · rw [category_percent_eq]
  · simp only [ne_eq, not_not] at h
    subst h
    simp [category_percent, round1]


/-! ### Claims -/

/-- C2, counterexample: with the duplicate resume entry `"Python"` listed
twice, the exact pass records the pair twice, so `matched = 2` exceeds
`total = 1` for the required category. -/
theorem C2_counterexample :
    ¬((analyze_skill_match ["Python", "Python"] ["Python"] []).required_skills.matched ≤
      (analyze_skill_match ["Python", "Python"] ["Python"] []).required_skills.total) := by
  decide

/-- C2, amended: for every resume skill list and every pair of job skill lists
(not both empty), each category of the report satisfies
`matched = |exact_matches| + |partial_matches|`; `matched ≤ total` does not
hold in general (see the counterexample), the bound that does hold is
`matched ≤ |resume_skills| * total`. -/
theorem C2_thm (rs req pref : List String) (h : ¬(req = [] ∧ pref = [])) :
    ((analyze_skill_match rs req pref).required_skills.matched =
        (analyze_skill_match rs req pref).required_skills.exact_matches.length +
          (analyze_skill_match rs req pref).required_skills.partial_matches.length) ∧
    ((analyze_skill_match rs req pref).preferred_skills.matched =
        (analyze_skill_match rs req pref).preferred_skills.exact_matches.length +
          (analyze_skill_match rs req pref).preferred_skills.partial_matches.length) ∧
    (analyze_skill_match rs req pref).required_skills.matched ≤
        rs.length * (analyze_skill_match rs req pref).required_skills.total ∧
    (analyze_skill_match rs req pref).preferred_skills.matched ≤
        rs.length * (analyze_skill_match rs req pref).preferred_skills.total := by
  rw [analyze_eq_normal h]
  refine ⟨rfl, rfl, ?_, ?_⟩
  · rw [normal_required_matched, normal_required_total]
    exact exact_add_partial_le rs req
  · rw [normal_preferred_matched, normal_preferred_total]
    exact exact_add_partial_le rs pref

/-- C2, witness of the amended theorem at a concrete input. -/
theorem C2_witness :
    (¬((["python"] : List String) = [] ∧ ([] : List String) = [])) ∧
    (analyze_skill_match ["Python"] ["python"] []).required_skills.matched =
        (analyze_skill_match ["Python"] ["python"] []).required_skills.exact_matches.length +
          (analyze_skill_match ["Python"] ["python"] []).required_skills.partial_matches.length ∧
    (analyze_skill_match ["Python"] ["python"] []).required_skills.matched ≤
        (["Python"] : List String).length *
          (analyze_skill_match ["Python"] ["python"] []).required_skills.total := by
  refine ⟨by decide, ?_, ?_⟩
  · exact (C2_thm ["Python"] ["python"] [] (by decide)).1
  · exact (C2_thm ["Python"] ["python"] [] (by decide)).2.2.1

/-- C3, counterexample: duplicate entries are not filtered out — duplicating
the resume entry `"Python"` changes the matched count of the required
category from 1 to 2, so the engine does not behave as if duplicates had been
removed. -/
theorem C3_counterexample :
    (analyze_skill_match ["Python", "Python"] ["Python"] []).required_skills.matched ≠
      (analyze_skill_match ["Python"] ["Python"] []).required_skills.matched := by
  decide

/-- C3, amended: no filtering happens before matching and scoring — the loops
iterate the raw input lists, every raw job entry (duplicate, empty or
whitespace-only included) counts toward the category total, and the report
echoes the raw resume list.  (The normalized lists computed at the top of
`analyze_skill_match` are dead code.) -/
theorem C3_thm (rs req pref : List String) (h : ¬(req = [] ∧ pref = [])) :
    (analyze_skill_match rs req pref).required_skills.total = req.length ∧
    (analyze_skill_match rs req pref).preferred_skills.total = pref.length ∧
    (analyze_skill_match rs req pref).resume_skills = rs := by
  rw [analyze_eq_normal h]
  exact ⟨rfl, rfl, rfl⟩

/-- C3, witness of the amended theorem: a whitespace-only and a duplicate job
entry both count toward `total`. -/
theorem C3_witness :
    (¬((["SQL", "SQL", " "] : List String) = [] ∧ ([] : List String) = [])) ∧
    (analyze_skill_match ["Python"] ["SQL", "SQL", " "] []).required_skills.total = 3 := by
  exact ⟨by decide, (C3_thm ["Python"] ["SQL", "SQL", " "] [] (by decide)).1⟩

/-- C6: for every input, exactly one of the four `analysis_summary` flags of
the returned report is true — in the normal and in the demo path alike. -/
theorem C6_thm (rs req pref : List String) :
    ((if (analyze_skill_match rs req pref).analysis_summary.strong_match then 1 else 0)
      + (if (analyze_skill_match rs req pref).analysis_summary.good_match then 1 else 0)
      + (if (analyze_skill_match rs req pref).analysis_summary.fair_match then 1 else 0)
      + (if (analyze_skill_match rs req pref).analysis_summary.weak_match then 1 else 0) : ℕ)
      = 1 := by
  obtain ⟨o, ho⟩ := analysis_summary_is_mkSummary rs req pref
  rw [ho]
  exact mkSummary_count o

/-- C7: the demo path is taken iff both job skill lists are empty; the resume
list never decides it, and a non-demo report carries `demo_mode = false`. -/
theorem C7_thm (rs req pref : List String) :
    (analyze_skill_match rs req pref).demo_mode = true ↔ (req = [] ∧ pref = []) := by
  by_cases h : req = [] ∧ pref = []
  · obtain ⟨h1, h2⟩ := h
    subst h1
    subst h2
    simp [analyze_eq_demo, demo_mode_true]
  · rw [analyze_eq_normal h, normal_demo_mode]
    simp [h]

/-- C9: the engine is a pure function — two invocations of
`analyze_skill_match` on identical resume, required and preferred lists
return identical reports. -/
theorem C9_thm (rs₁ rs₂ req₁ req₂ pref₁ pref₂ : List String)
    (hr : rs₁ = rs₂) (hq : req₁ = req₂) (hp : pref₁ = pref₂) :
    analyze_skill_match rs₁ req₁ pref₁ = analyze_skill_match rs₂ req₂ pref₂ := by
  rw [hr, hq, hp]

/-- C9, witness at a concrete input. -/
theorem C9_witness :
    analyze_skill_match ["Python"] ["SQL"] ["AWS"] =
      analyze_skill_match ["Python"] ["SQL"] ["AWS"] :=
  C9_thm ["Python"] ["Python"] ["SQL"] ["SQL"] ["AWS"] ["AWS"] rfl rfl rfl

/-- C4: per category the reported percentage is `matched / total * 100`
rounded to one decimal (0 when `total = 0`, with an empty missing list), and
the overall percentage blends required and preferred 70/30 when the job has
preferred skills and equals the required percentage alone otherwise. -/
theorem C4_thm (rs req pref : List String) (h : ¬(req = [] ∧ pref = [])) :
    ((analyze_skill_match rs req pref).required_skills.match_percentage =
        if (analyze_skill_match rs req pref).required_skills.total ≠ 0 then
          round1 (((analyze_skill_match rs req pref).required_skills.matched : ℚ) /
            ((analyze_skill_match rs req pref).required_skills.total : ℚ) * 100)
        else 0) ∧
    ((analyze_skill_match rs req pref).required_skills.total = 0 →
        (analyze_skill_match rs req pref).required_skills.match_percentage = 0 ∧
        (analyze_skill_match rs req pref).required_skills.missing = []) ∧
    ((analyze_skill_match rs req pref).preferred_skills.match_percentage =
        if (analyze_skill_match rs req pref).preferred_skills.total ≠ 0 then
          round1 (((analyze_skill_match rs req pref).preferred_skills.matched : ℚ) /
            ((analyze_skill_match rs req pref).preferred_skills.total : ℚ) * 100)
        else 0) ∧
    ((analyze_skill_match rs req pref).preferred_skills.total = 0 →
        (analyze_skill_match rs req pref).preferred_skills.match_percentage = 0 ∧
        (analyze_skill_match rs req pref).preferred_skills.missing = []) ∧
    ((analyze_skill_match rs req pref).overall_match_percentage =
        if (analyze_skill_match rs req pref).preferred_skills.total ≠ 0 then
          round1 (((analyze_skill_match rs req pref).required_skills.matched : ℚ) /
              ((analyze_skill_match rs req pref).required_skills.total : ℚ) * 100 * (7 / 10)
            + ((analyze_skill_match rs req pref).preferred_skills.matched : ℚ) /
              ((analyze_skill_match rs req pref).preferred_skills.total : ℚ) * 100 * (3 / 10))
        else (analyze_skill_match rs req pref).required_skills.match_percentage) := by
  rw [analyze_eq_normal h]
  simp only [normal_required_pct, normal_preferred_pct, normal_required_matched,
    normal_preferred_matched, normal_required_total, normal_preferred_total,
    normal_required_missing, normal_preferred_missing, normal_overall]
  refine ⟨round1_category_percent _ _, ?_, round1_category_percent _ _, ?_, ?_⟩
  · intro h0
    obtain rfl : req = [] := List.length_eq_zero.mp h0
    constructor
    · rw [round1_category_percent]
      simp
    · rfl
  · intro h0
    obtain rfl : pref = [] := List.length_eq_zero.mp h0
    constructor
    · rw [round1_category_percent]
      simp
    · rfl
  · by_cases hp : pref.length = 0
    · rw [hp, if_neg (by omega : ¬(0 : ℕ) < 0), if_neg (by omega : ¬(0 : ℕ) ≠ 0)]
    · rw [if_pos (Nat.pos_of_ne_zero hp), if_pos hp, category_percent_eq, category_percent_eq]

/-- C4, witness of the theorem at a concrete input. -/
theorem C4_witness :
    (¬((["python"] : List String) = [] ∧ ([] : List String) = [])) ∧
    ((analyze_skill_match ["Python"] ["python"] []).required_skills.match_percentage =
      if (analyze_skill_match ["Python"] ["python"] []).required_skills.total ≠ 0 then
        round1 (((analyze_skill_match ["Python"] ["python"] []).required_skills.matched : ℚ) /
          ((analyze_skill_match ["Python"] ["python"] []).required_skills.total : ℚ) * 100)
      else 0) ∧
    ((analyze_skill_match ["Python"] ["python"] []).overall_match_percentage =
      if (analyze_skill_match ["Python"] ["python"] []).preferred_skills.total ≠ 0 then
        round1 (((analyze_skill_match ["Python"] ["python"] []).required_skills.matched : ℚ) /
            ((analyze_skill_match ["Python"] ["python"] []).required_skills.total : ℚ) * 100 * (7 / 10)
          + ((analyze_skill_match ["Python"] ["python"] []).preferred_skills.matched : ℚ) /
            ((analyze_skill_match ["Python"] ["python"] []).preferred_skills.total : ℚ) * 100 * (3 / 10))
      else (analyze_skill_match ["Python"] ["python"] []).required_skills.match_percentage) :=
  ⟨by decide, (C4_thm ["Python"] ["python"] [] (by decide)).1,
    (C4_thm ["Python"] ["python"] [] (by decide)).2.2.2.2⟩

/-- C5: in each category, a resume skill that is not the `resume_skill` of
any exact record yields a partial record with every job skill whose
normalized form is a substring of (or contains) its own; a resume skill that
is the `resume_skill` of an exact record yields no partial record at all in
that category; and on Scenario B (resume `["JavaScript"]`, required
`["Java"]`) the engine returns `matched = 1` via one partial record and an
empty missing list. -/
theorem C5_thm (rs req pref : List String) (h : ¬(req = [] ∧ pref = [])) :
    (∀ r ∈ rs,
      (¬∃ m ∈ (analyze_skill_match rs req pref).required_skills.exact_matches,
          m.resume_skill = r) →
      ∀ j ∈ req,
        (listIsSub (normSkill r) (normSkill j) || listIsSub (normSkill j) (normSkill r)) = true →
        (⟨r, j, "partial"⟩ : MatchRecord) ∈
          (analyze_skill_match rs req pref).required_skills.partial_matches) ∧
    (∀ r ∈ rs,
      (∃ m ∈ (analyze_skill_match rs req pref).required_skills.exact_matches,
          m.resume_skill = r) →
      ∀ m ∈ (analyze_skill_match rs req pref).required_skills.partial_matches,
        m.resume_skill ≠ r) ∧
    (∀ r ∈ rs,
      (¬∃ m ∈ (analyze_skill_match rs req pref).preferred_skills.exact_matches,
          m.resume_skill = r) →
      ∀ j ∈ pref,
        (listIsSub (normSkill r) (normSkill j) || listIsSub (normSkill j) (normSkill r)) = true →
        (⟨r, j, "partial"⟩ : MatchRecord) ∈
          (analyze_skill_match rs req pref).preferred_skills.partial_matches) ∧
    (∀ r ∈ rs,
      (∃ m ∈ (analyze_skill_match rs req pref).preferred_skills.exact_matches,
          m.resume_skill = r) →
      ∀ m ∈ (analyze_skill_match rs req pref).preferred_skills.partial_matches,
        m.resume_skill ≠ r) ∧
    ((analyze_skill_match ["JavaScript"] ["Java"] []).required_skills.matched = 1 ∧
      (analyze_skill_match ["JavaScript"] ["Java"] []).required_skills.partial_matches =
        [⟨"JavaScript", "Java", "partial"⟩] ∧
      (analyze_skill_match ["JavaScript"] ["Java"] []).required_skills.missing = []) := by
  rw [analyze_eq_normal h]
  simp only [normal_required_exact, normal_preferred_exact, normal_required_partial_list,
    normal_preferred_partial_list]
  refine ⟨?_, ?_, ?_, ?_, by decide, by decide, by decide⟩
  · intro r hr hnex j hj hsub
    have hany : ((exactPass rs req).any fun m =>
        lowerSkill m.resume_skill == lowerSkill r) = false := by
      rw [← Bool.not_eq_true, any_exact_iff hr]
      exact fun hex => hnex ((exact_record_iff hr).mpr hex)
    exact mem_partialPass.mpr ⟨r, hr, j, hj, by rw [hsub, hany]; rfl, rfl⟩
  · intro r hr hex m hm hres
    obtain ⟨r₂, hr₂, j, hj, hc, hrec⟩ := mem_partialPass.mp hm
    have hr₂r : r₂ = r := by rw [hrec] at hres; exact hres
    subst hr₂r
    simp only [Bool.and_eq_true] at hc
    have hany := hc.2
    rw [Bool.not_eq_true'] at hany
    exact absurd hany (by rw [(any_exact_iff hr).mpr ((exact_record_iff hr).mp hex)]; decide)
  · intro r hr hnex j hj hsub
    have hany : ((exactPass rs pref).any fun m =>
        lowerSkill m.resume_skill == lowerSkill r) = false := by
      rw [← Bool.not_eq_true, any_exact_iff hr]
      exact fun hex => hnex ((exact_record_iff hr).mpr hex)
    exact mem_partialPass.mpr ⟨r, hr, j, hj, by rw [hsub, hany]; rfl, rfl⟩
  · intro r hr hex m hm hres
    obtain ⟨r₂, hr₂, j, hj, hc, hrec⟩ := mem_partialPass.mp hm
    have hr₂r : r₂ = r := by rw [hrec] at hres; exact hres
    subst hr₂r
    simp only [Bool.and_eq_true] at hc
    have hany := hc.2
    rw [Bool.not_eq_true'] at hany
    exact absurd hany (by rw [(any_exact_iff hr).mpr ((exact_record_iff hr).mp hex)]; decide)

/-- C5, witness: Scenario B through the theorem. -/
theorem C5_witness :
    (¬((["Java"] : List String) = [] ∧ ([] : List String) = [])) ∧
    (⟨"JavaScript", "Java", "partial"⟩ : MatchRecord) ∈
      (analyze_skill_match ["JavaScript"] ["Java"] []).required_skills.partial_matches :=
  ⟨by decide,
    (C5_thm ["JavaScript"] ["Java"] [] (by decide)).1 "JavaScript" (by decide)
      (by decide) "Java" (by decide) (by decide)⟩

/-- C10: a resume entry whose normalized form is empty (empty or
whitespace-only) and that exact-matches nothing yields a partial record with
every job skill of each category, and whitespace-only job entries still count
toward the totals. -/
theorem C10_thm (rs req pref : List String) (r : String) (h : ¬(req = [] ∧ pref = []))
    (hr : r ∈ rs) (hw : normSkill r = [])
    (hnoreq : ∀ j ∈ req, normSkill r ≠ normSkill j)
    (hnopref : ∀ j ∈ pref, normSkill r ≠ normSkill j) :
    (∀ j ∈ req, (⟨r, j, "partial"⟩ : MatchRecord) ∈
        (analyze_skill_match rs req pref).required_skills.partial_matches) ∧
    (∀ j ∈ pref, (⟨r, j, "partial"⟩ : MatchRecord) ∈
        (analyze_skill_match rs req pref).preferred_skills.partial_matches) ∧
    (analyze_skill_match rs req pref).required_skills.total = req.length ∧
    (analyze_skill_match rs req pref).preferred_skills.total = pref.length := by
  rw [analyze_eq_normal h]
  simp only [normal_required_partial_list, normal_preferred_partial_list, normal_required_total,
    normal_preferred_total]
  refine ⟨?_, ?_, trivial, trivial⟩
  · intro j hj
    have hany : ((exactPass rs req).any fun m =>
        lowerSkill m.resume_skill == lowerSkill r) = false := by
      rw [← Bool.not_eq_true, any_exact_iff hr]
      rintro ⟨j₀, hj₀, hn⟩
      exact hnoreq j₀ hj₀ hn
    have hsub : listIsSub (normSkill r) (normSkill j) = true := by
      rw [hw]
      exact listIsSub_nil_left _
    exact mem_partialPass.mpr ⟨r, hr, j, hj, by rw [hsub, hany]; rfl, rfl⟩
  · intro j hj
    have hany : ((exactPass rs pref).any fun m =>
        lowerSkill m.resume_skill == lowerSkill r) = false := by
      rw [← Bool.not_eq_true, any_exact_iff hr]
      rintro ⟨j₀, hj₀, hn⟩
      exact hnopref j₀ hj₀ hn
    have hsub : listIsSub (normSkill r) (normSkill j) = true := by
      rw [hw]
      exact listIsSub_nil_left _
    exact mem_partialPass.mpr ⟨r, hr, j, hj, by rw [hsub, hany]; rfl, rfl⟩

/-- C10, witness: the whitespace-only resume entry `" "` against one required
and one preferred job skill. -/
theorem C10_witness :
    (¬((["Python"] : List String) = [] ∧ (["AWS"] : List String) = [])) ∧
    normSkill " " = [] ∧
    (⟨" ", "Python", "partial"⟩ : MatchRecord) ∈
      (analyze_skill_match [" "] ["Python"] ["AWS"]).required_skills.partial_matches ∧
    (⟨" ", "AWS", "partial"⟩ : MatchRecord) ∈
      (analyze_skill_match [" "] ["Python"] ["AWS"]).preferred_skills.partial_matches :=
  ⟨by decide, by decide,
    (C10_thm [" "] ["Python"] ["AWS"] " " (by decide) (by decide) (by decide)
      (by decide) (by decide)).1 "Python" (by decide),
    (C10_thm [" "] ["Python"] ["AWS"] " " (by decide) (by decide) (by decide)
      (by decide) (by decide)).2.1 "AWS" (by decide)⟩

/-- C8: the recommendation engine returns the first five missing required
skills as `priority_skills`, the first five missing preferred skills as
`nice_to_have_skills`, and between zero and three `action_items`, appended in
order: a missing-required note iff some required skill is missing, a
preferred-skills note iff some preferred skill is missing, and an
encouragement note iff the overall percentage is at least 70. -/
theorem C8_thm (m : MatchReport) :
    (generate_recommendations m).priority_skills = m.required_skills.missing.take 5 ∧
    (generate_recommendations m).nice_to_have_skills = m.preferred_skills.missing.take 5 ∧
    (generate_recommendations m).action_items =
      ((if m.required_skills.missing ≠ [] then
          ["Focus on learning " ++ toString m.required_skills.missing.length ++
            " missing required skills"]
        else [])
      ++ (if m.preferred_skills.missing ≠ [] then
          ["Consider learning " ++ toString m.preferred_skills.missing.length ++
            " preferred skills to stand out"]
        else [])
      ++ (if 70 ≤ m.overall_match_percentage then
          ["You\x27re a strong candidate - consider applying!"]
        else [])) ∧
    (generate_recommendations m).action_items.length ≤ 3 := by
  have hif : ∀ (l : List String) (x : String),
      (if l.isEmpty then ([] : List String) else [x]) = (if l ≠ [] then [x] else []) := by
    intro l x
    rcases l with _ | ⟨a, t⟩ <;> simp
  have hact : (generate_recommendations m).action_items =
      ((if m.required_skills.missing ≠ [] then
          ["Focus on learning " ++ toString m.required_skills.missing.length ++
            " missing required skills"]
        else [])
      ++ (if m.preferred_skills.missing ≠ [] then
          ["Consider learning " ++ toString m.preferred_skills.missing.length ++
            " preferred skills to stand out"]
        else [])
      ++ (if 70 ≤ m.overall_match_percentage then
          ["You\x27re a strong candidate - consider applying!"]
        else [])) := by
    show ((if m.required_skills.missing.isEmpty then ([] : List String) else _)
        ++ (if m.preferred_skills.missing.isEmpty then ([] : List String) else _)
        ++ _) = _
    rw [hif, hif]
  have hle : ∀ (p : Prop) (inst : Decidable p) (x : String),
      (if p then [x] else ([] : List String)).length ≤ 1 := by
    intro p inst x
    split_ifs <;> simp
  refine ⟨rfl, rfl, hact, ?_⟩
  rw [hact]
  simp only [List.length_append]
  have h1 := hle (m.required_skills.missing ≠ []) inferInstance
    ("Focus on learning " ++ toString m.required_skills.missing.length ++
      " missing required skills")
  have h2 := hle (m.preferred_skills.missing ≠ []) inferInstance
    ("Consider learning " ++ toString m.preferred_skills.missing.length ++
      " preferred skills to stand out")
  have h3 := hle (70 ≤ m.overall_match_percentage) inferInstance
    "You\x27re a strong candidate - consider applying!"
  omega

/-- C1, counterexample: with resume `["Java"]` the demo path records no match
(its exact-only, untrimmed comparison finds nothing), while the §4.2-4.3
pipeline run on the reference job profile records a partial match of "Java"
in "JavaScript" — so the demo report is not the pipeline report plus
`demo_mode = true`. -/
theorem C1_counterexample :
    analyze_skill_match ["Java"] [] [] ≠ spec_demo_report ["Java"] := by
  intro h
  exact absurd (congrArg (fun rep => rep.required_skills.matched) h) (by decide)

theorem demoExact_eq_exact {rs job : List String}
    (h : ∀ r ∈ rs, normSkill r = lowerSkill r)
    (hjob : ∀ j ∈ job, normSkill j = lowerSkill j) :
    demoExactPass rs job = exactPass rs job := by
  unfold demoExactPass exactPass
  apply flatMap_congr_mem
  intro r hr
  apply filterMap_congr_mem
  intro j hj
  rw [h r hr, hjob j hj]

/-- C1, amended: when both job lists are empty the fallback substitutes the
fixed reference job profile but re-implements matching as an exact-only,
untrimmed, case-insensitive comparison instead of re-invoking the §4.2-4.3
pipeline; it never produces partial records, so its report can differ from
the pipeline's (see the counterexample).  For resume skills whose lower-cased
form is already trimmed its exact records and category totals do coincide
with the pipeline's on the reference profile, and the report carries
`demo_mode = true`. -/
theorem C1_thm (rs : List String) (h : ∀ r ∈ rs, normSkill r = lowerSkill r) :
    (analyze_skill_match rs [] []).required_skills.exact_matches =
      (analyze_skill_match rs demo_required_skills demo_preferred_skills).required_skills.exact_matches ∧
    (analyze_skill_match rs [] []).preferred_skills.exact_matches =
      (analyze_skill_match rs demo_required_skills demo_preferred_skills).preferred_skills.exact_matches ∧
    (analyze_skill_match rs [] []).required_skills.total =
      (analyze_skill_match rs demo_required_skills demo_preferred_skills).required_skills.total ∧
    (analyze_skill_match rs [] []).preferred_skills.total =
      (analyze_skill_match rs demo_required_skills demo_preferred_skills).preferred_skills.total ∧
    (analyze_skill_match rs [] []).required_skills.partial_matches = [] ∧
    (analyze_skill_match rs [] []).preferred_skills.partial_matches = [] ∧
    (analyze_skill_match rs [] []).demo_mode = true := by
  have hne : ¬(demo_required_skills = [] ∧ demo_preferred_skills = []) := by
    intro hc
    simp [demo_required_skills] at hc
  rw [analyze_eq_demo, analyze_eq_normal hne]
  refine ⟨?_, ?_, rfl, rfl, rfl, rfl, rfl⟩
  · show demoExactPass rs demo_required_skills = exactPass rs demo_required_skills
    exact demoExact_eq_exact h (by decide)
  · show demoExactPass rs demo_preferred_skills = exactPass rs demo_preferred_skills
    exact demoExact_eq_exact h (by decide)

/-- C1, witness of the amended theorem at resume `["Python"]`. -/
theorem C1_witness :
    (∀ r ∈ (["Python"] : List String), normSkill r = lowerSkill r) ∧
    (analyze_skill_match ["Python"] [] []).required_skills.exact_matches =
      (analyze_skill_match ["Python"] demo_required_skills
        demo_preferred_skills).required_skills.exact_matches ∧
    (analyze_skill_match ["Python"] [] []).demo_mode = true :=
  ⟨by decide, (C1_thm ["Python"] (by decide)).1,
    (C1_thm ["Python"] (by decide)).2.2.2.2.2.2⟩

end Nymph
